import Mathlib

/-!
Shallow embedding of the Heikin-Ashi stock-quote application.

The embedded code comes from the React components of the repository:
* `calculateHeikinAshi` and `fetchHistoricalData` from the Heikin-Ashi
  chart component (the component that fetches TIME_SERIES_DAILY_ADJUSTED
  and renders a candlestick chart);
* the option-chain table rendering from the options-chain component
  (the row list `[...optionsData.calls, ...optionsData.puts]`).

JavaScript numbers are modelled by `JNum`: either NaN or a rational.
The claims under verification are exact algebraic identities between
values as the code computes them, so a rational carrier is faithful:
every arithmetic step of the source is mirrored one-for-one, including
NaN propagation through `parseFloat`, `+`, `/`, `Math.max`, `Math.min`.
-/

/-- A JavaScript number as used by the component: NaN or a rational value.
(The code never produces infinities: inputs come from `parseFloat` of feed
strings and are combined only by `+`, `/2`, `/4`, `Math.max`, `Math.min`.) -/
inductive JNum where
  | nan : JNum
  | num (q : ℚ) : JNum
deriving DecidableEq, Repr

namespace JNum

/-- JavaScript `+` on numbers: NaN absorbs. -/
def add : JNum → JNum → JNum
  | nan, _ => nan
  | _, nan => nan
  | num a, num b => num (a + b)

instance : Add JNum := ⟨add⟩

/-- JavaScript `/` on numbers, for the nonzero constant divisors (2 and 4)
appearing in the source: NaN absorbs, otherwise rational division. -/
def div : JNum → JNum → JNum
  | nan, _ => nan
  | _, nan => nan
  | num a, num b => num (a / b)

instance : Div JNum := ⟨div⟩

instance (n : ℕ) : OfNat JNum n := ⟨num n⟩

instance : Inhabited JNum := ⟨nan⟩

theorem add_def (a b : JNum) : a + b = add a b := rfl

theorem div_def (a b : JNum) : a / b = div a b := rfl

theorem nan_add (b : JNum) : nan + b = nan := by
  cases b <;> rfl

theorem add_nan (a : JNum) : a + nan = nan := by
  cases a <;> rfl

theorem nan_div (b : JNum) : nan / b = nan := by
  cases b <;> rfl

end JNum

namespace Math

/-- JavaScript `Math.max(a, b, c)` (three arguments, as called in the
source): NaN if any argument is NaN, otherwise the largest. -/
def max : JNum → JNum → JNum → JNum
  | .nan, _, _ => .nan
  | _, .nan, _ => .nan
  | _, _, .nan => .nan
  | .num a, .num b, .num c => .num (Max.max a (Max.max b c))

/-- JavaScript `Math.min(a, b, c)` (three arguments, as called in the
source): NaN if any argument is NaN, otherwise the smallest. -/
def min : JNum → JNum → JNum → JNum
  | .nan, _, _ => .nan
  | _, .nan, _ => .nan
  | _, _, .nan => .nan
  | .num a, .num b, .num c => .num (Min.min a (Min.min b c))

theorem max_nan_left (b c : JNum) : max .nan b c = .nan := by
  cases b <;> cases c <;> rfl

theorem min_nan_left (b c : JNum) : min .nan b c = .nan := by
  cases b <;> cases c <;> rfl

theorem max_nan_mid (a c : JNum) : max a .nan c = .nan := by
  cases a <;> cases c <;> rfl

theorem min_nan_mid (a c : JNum) : min a .nan c = .nan := by
  cases a <;> cases c <;> rfl

end Math

/-! ### parseFloat

Model of JavaScript `parseFloat` on ordinary decimal literals: skip
leading whitespace, read an optional sign, an integer part, an optional
fractional part and an optional exponent, ignoring any trailing garbage;
NaN when no digit can be read.  (The `Infinity` special case of the
builtin is not modelled; no claim involves it.) -/

/-- Numeric value of a digit string (most significant first). -/
def digitsToNat (l : List Char) : ℕ :=
  l.foldl (fun a c => 10 * a + (c.toNat - 48)) 0

/-- Power of ten with an integer exponent, as a rational. -/
def pow10 : ℤ → ℚ
  | .ofNat n => (10 : ℚ) ^ n
  | .negSucc n => 1 / (10 : ℚ) ^ (n + 1)

/-- Read an optional sign off the front of a character list. -/
def readSign : List Char → ℚ × List Char
  | '-' :: r => (-1, r)
  | '+' :: r => (1, r)
  | l => (1, l)

/-- Read an optional exponent part (`e`/`E`, optional sign, digits).
JavaScript keeps the longest valid prefix, so a sign or `e` with no
digits after it contributes exponent 0. -/
def readExponent (l : List Char) : ℤ :=
  match l with
  | 'e' :: r => readExponentBody r
  | 'E' :: r => readExponentBody r
  | _ => 0
where
  /-- Exponent after the `e`: optional sign then digits. -/
  readExponentBody (r : List Char) : ℤ :=
    let sr := readSign r
    let ds := sr.2.takeWhile Char.isDigit
    if ds = [] then 0 else (sr.1 : ℚ).num * (digitsToNat ds : ℤ)

/-- JavaScript `parseFloat` on a string (decimal literals). -/
def parseFloat (s : String) : JNum :=
  let cs := s.data.dropWhile Char.isWhitespace
  let sc := readSign cs
  let intPart := sc.2.takeWhile Char.isDigit
  let afterInt := sc.2.dropWhile Char.isDigit
  let fracState : List Char × List Char :=
    match afterInt with
    | '.' :: r => (r.takeWhile Char.isDigit, r.dropWhile Char.isDigit)
    | _ => ([], afterInt)
  if intPart = [] ∧ fracState.1 = [] then JNum.nan
  else
    let mantissa : ℚ :=
      (digitsToNat intPart : ℚ) + (digitsToNat fracState.1 : ℚ) / (10 : ℚ) ^ fracState.1.length
    JNum.num (sc.1 * mantissa * pow10 (readExponent fracState.2))

/-! ### The Heikin-Ashi transform (`calculateHeikinAshi`)

Source: the chart component defines

```
const calculateHeikinAshi = (timeSeries) => {
  const heikinAshiData = [];
  let prevHA = null;
  Object.entries(timeSeries).forEach(([date, values], index) => {
    const open = parseFloat(values["1. open"]);
    const high = parseFloat(values["2. high"]);
    const low = parseFloat(values["3. low"]);
    const close = parseFloat(values["4. close"]);
    let haOpen, haClose, haHigh, haLow;
    if (index === 0) { haOpen = open; haClose = close; }
    else { haOpen = (prevHA!.open + prevHA!.close) / 2;
           haClose = (open + high + low + close) / 4; }
    haHigh = Math.max(high, haOpen, haClose);
    haLow = Math.min(low, haOpen, haClose);
    const haCandle = { time: date, open: haOpen, high: haHigh, low: haLow, close: haClose };
    heikinAshiData.push(haCandle);
    prevHA = haCandle;
  });
  return heikinAshiData.reverse();
};
```

`Object.entries(timeSeries)` is modelled as a list of (date, values)
pairs in iteration order (the processing order); the loop is the
recursion `haLoop`, and the trailing `.reverse()` is `List.reverse`. -/

/-- The per-day OHLC fields of one `Time Series (Daily)` entry
(`1. open`, `2. high`, `3. low`, `4. close`), as strings exactly
as received from the feed. -/
structure DailyValues where
  open_ : String
  high : String
  low : String
  close : String
deriving DecidableEq, Repr

instance : Inhabited DailyValues := ⟨⟨"", "", "", ""⟩⟩

/-- A Heikin-Ashi candle (`HeikinAshiDataPoint` in the source):
`{ time, open, high, low, close }`. -/
structure HeikinAshiDataPoint where
  time : String
  open_ : JNum
  high : JNum
  low : JNum
  close : JNum
deriving DecidableEq, Repr

instance : Inhabited HeikinAshiDataPoint := ⟨⟨"", .nan, .nan, .nan, .nan⟩⟩

/-- One iteration of the `forEach` body: builds the candle for `(date,
values)` at position `index`, given the previously built candle (`prevHA`;
`none` only before the first iteration, mirroring `let prevHA = null`). -/
def haCandle (index : ℕ) (prevHA : Option HeikinAshiDataPoint)
    (date : String) (values : DailyValues) : HeikinAshiDataPoint :=
  let o := parseFloat values.open_
  let h := parseFloat values.high
  let l := parseFloat values.low
  let c := parseFloat values.close
  let haOpen := if index = 0 then o
    else ((prevHA.getD default).open_ + (prevHA.getD default).close) / 2
  let haClose := if index = 0 then c else (o + h + l + c) / 4
  { time := date
    open_ := haOpen
    high := Math.max h haOpen haClose
    low := Math.min l haOpen haClose
    close := haClose }

/-- The `forEach` loop of `calculateHeikinAshi`, producing candles in
processing order (before the final `.reverse()`). -/
def haLoop (prevHA : Option HeikinAshiDataPoint) (index : ℕ) :
    List (String × DailyValues) → List HeikinAshiDataPoint
  | [] => []
  | (date, values) :: rest =>
    let c := haCandle index prevHA date values
    c :: haLoop (some c) (index + 1) rest

/-- The function `calculateHeikinAshi`: run the loop over the entries in iteration
order, then reverse (`return heikinAshiData.reverse()`). -/
def calculateHeikinAshi (timeSeries : List (String × DailyValues)) :
    List HeikinAshiDataPoint :=
  (haLoop none 0 timeSeries).reverse

/-! ### Basic structure lemmas about the loop -/

theorem haLoop_length (ts : List (String × DailyValues)) :
    ∀ p i, (haLoop p i ts).length = ts.length := by
  induction ts with
  | nil => intro p i; rfl
  | cons a rest ih =>
    intro p i
    cases a with
    | mk date values => simp [haLoop, ih]

theorem calculateHeikinAshi_length_eq (ts : List (String × DailyValues)) :
    (calculateHeikinAshi ts).length = ts.length := by
  simp [calculateHeikinAshi, haLoop_length]

theorem reverse_calculateHeikinAshi (ts : List (String × DailyValues)) :
    (calculateHeikinAshi ts).reverse = haLoop none 0 ts := by
  simp [calculateHeikinAshi]

theorem haLoop_getD_zero (p : Option HeikinAshiDataPoint) (i : ℕ)
    (ts : List (String × DailyValues)) (h : ts ≠ []) :
    (haLoop p i ts).getD 0 default =
      haCandle i p (ts.getD 0 default).1 (ts.getD 0 default).2 := by
  cases ts with
  | nil => exact absurd rfl h
  | cons a rest => cases a with
    | mk date values => rfl

theorem haLoop_getD_succ (ts : List (String × DailyValues)) :
    ∀ p i j, j + 1 < ts.length →
    (haLoop p i ts).getD (j + 1) default =
      haCandle (i + (j + 1)) (some ((haLoop p i ts).getD j default))
        (ts.getD (j + 1) default).1 (ts.getD (j + 1) default).2 := by
  induction ts with
  | nil => intro p i j h; simp at h
  | cons a rest ih =>
    intro p i j h
    cases a with
    | mk date values =>
      cases j with
      | zero =>
        cases rest with
        | nil => simp [List.length] at h
        | cons b rest2 => cases b with
          | mk d2 v2 => simp [haLoop]
      | succ k =>
        have hk : k + 1 < rest.length := by
          simpa [List.length] using Nat.lt_of_succ_lt_succ h
        have := ih (some (haCandle i p date values)) (i + 1) k hk
        simp only [haLoop, List.getD_cons_succ]
        rw [this]
        congr 1
        omega

theorem haLoop_getD_shape (ts : List (String × DailyValues)) (j : ℕ)
    (h : j < ts.length) :
    ∀ p i, ∃ q, (haLoop p i ts).getD j default =
      haCandle (i + j) q (ts.getD j default).1 (ts.getD j default).2 := by
  intro p i
  cases j with
  | zero =>
    refine ⟨p, ?_⟩
    have hne : ts ≠ [] := by
      intro he; rw [he] at h; simp at h
    simpa using haLoop_getD_zero p i ts hne
  | succ k =>
    exact ⟨some ((haLoop p i ts).getD k default), haLoop_getD_succ ts p i k h⟩

theorem haLoop_map_time (ts : List (String × DailyValues)) :
    ∀ p i, (haLoop p i ts).map HeikinAshiDataPoint.time = ts.map Prod.fst := by
  induction ts with
  | nil => intro p i; rfl
  | cons a rest ih =>
    intro p i
    cases a with
    | mk date values => simp [haLoop, haCandle, ih]

/-! ### Field lemmas for a single candle -/

theorem haCandle_zero_open (p : Option HeikinAshiDataPoint) (d : String) (v : DailyValues) :
    (haCandle 0 p d v).open_ = parseFloat v.open_ := rfl

theorem haCandle_zero_close (p : Option HeikinAshiDataPoint) (d : String) (v : DailyValues) :
    (haCandle 0 p d v).close = parseFloat v.close := rfl

theorem haCandle_succ_open (n : ℕ) (q : HeikinAshiDataPoint) (d : String) (v : DailyValues) :
    (haCandle (n + 1) (some q) d v).open_ = (q.open_ + q.close) / 2 := rfl

theorem haCandle_succ_close (n : ℕ) (q : Option HeikinAshiDataPoint) (d : String) (v : DailyValues) :
    (haCandle (n + 1) q d v).close =
      (parseFloat v.open_ + parseFloat v.high + parseFloat v.low + parseFloat v.close) / 4 := rfl

theorem haCandle_high_eq (n : ℕ) (p : Option HeikinAshiDataPoint) (d : String) (v : DailyValues) :
    (haCandle n p d v).high =
      Math.max (parseFloat v.high) (haCandle n p d v).open_ (haCandle n p d v).close := rfl

theorem haCandle_low_eq (n : ℕ) (p : Option HeikinAshiDataPoint) (d : String) (v : DailyValues) :
    (haCandle n p d v).low =
      Math.min (parseFloat v.low) (haCandle n p d v).open_ (haCandle n p d v).close := rfl

/-! ### NaN propagation -/

/-- A candle with at least one NaN field. -/
def hasNaNField (b : HeikinAshiDataPoint) : Prop :=
  b.open_ = JNum.nan ∨ b.high = JNum.nan ∨ b.low = JNum.nan ∨ b.close = JNum.nan

instance (b : HeikinAshiDataPoint) : Decidable (hasNaNField b) := by
  unfold hasNaNField; infer_instance

theorem ohlc4_nan (o h l c : JNum)
    (hbad : o = .nan ∨ h = .nan ∨ l = .nan ∨ c = .nan) :
    (o + h + l + c) / 4 = JNum.nan := by
  rcases hbad with rfl | rfl | rfl | rfl <;>
    simp [JNum.nan_add, JNum.add_nan, JNum.nan_div]

/-- Any malformed OHLC field of entry `i` leaves a NaN field in the
candle built for entry `i` (stated over the processing-order sequence,
i.e. the reverse of the returned list). -/
theorem nan_field_propagates (ts : List (String × DailyValues)) (i : ℕ)
    (hi : i < ts.length)
    (hbad : parseFloat (ts.getD i default).2.open_ = JNum.nan ∨
      parseFloat (ts.getD i default).2.high = JNum.nan ∨
      parseFloat (ts.getD i default).2.low = JNum.nan ∨
      parseFloat (ts.getD i default).2.close = JNum.nan) :
    hasNaNField ((calculateHeikinAshi ts).reverse.getD i default) := by
  rw [reverse_calculateHeikinAshi]
  obtain ⟨q, hq⟩ := haLoop_getD_shape ts i hi none 0
  rw [hq]
  cases i with
  | zero =>
    rcases hbad with h | h | h | h
    · exact Or.inl (by rw [haCandle_zero_open, h])
    · refine Or.inr (Or.inl ?_)
      rw [haCandle_high_eq, h, Math.max_nan_left]
    · refine Or.inr (Or.inr (Or.inl ?_))
      rw [haCandle_low_eq, h, Math.min_nan_left]
    · exact Or.inr (Or.inr (Or.inr (by rw [haCandle_zero_close, h])))
  | succ k =>
    refine Or.inr (Or.inr (Or.inr ?_))
    rw [show (0 + (k + 1)) = k + 1 by omega, haCandle_succ_close]
    exact ohlc4_nan _ _ _ _ hbad

/-! ### The options-chain table (options component)

Source: the options component keeps the last fetched chain as

```
setOptionsData({ calls: optionsData.calls || [], puts: optionsData.puts || [] });
```

and renders the table body from

```
{[...optionsData.calls, ...optionsData.puts].map((option, index) => ( <tr ...> ... ))}
```

The row sequence is the spread concatenation of the two fetched lists; the
spread builds a fresh array, leaving `optionsData` untouched. -/

/-- The union type `CALL | PUT` (the `contractType` field type of the source). -/
inductive ContractType where
  | CALL : ContractType
  | PUT : ContractType
deriving DecidableEq, Repr

/-- One listed option contract (`OptionContract` interface of the options
component), every price field a string as received from the feed. -/
structure OptionContract where
  contractName : String
  contractType : ContractType
  strikePrice : String
  lastPrice : String
  bid : String
  ask : String
  expiration : String
deriving DecidableEq, Repr

/-- The most recently fetched option chain (`OptionsData`). -/
structure OptionsData where
  calls : List OptionContract
  puts : List OptionContract
deriving DecidableEq, Repr

/-- The rendered option-chain row sequence:
`[...optionsData.calls, ...optionsData.puts]`. -/
def optionChainRows (d : OptionsData) : List OptionContract :=
  d.calls ++ d.puts

/-! ### The historical-data fetch with endpoint fallback
(`fetchHistoricalData`)

The two network round-trips are made explicit: `adjusted` is the parsed
response of the TIME_SERIES_DAILY_ADJUSTED request, `unadjusted` the
parsed response the TIME_SERIES_DAILY request returns when issued.  The
function yields the Heikin-Ashi data handed to `setHeikinAshiData`
together with a flag recording whether the fallback request was issued,
or the thrown error message. -/

/-- A parsed AlphaVantage response as `fetchHistoricalData` inspects it:
the HTTP `response.ok` flag, the optional `Error Message` field, and
the optional `Time Series (Daily)` object (entries in iteration
order). -/
structure APIResponse where
  ok : Bool
  errorMessage : Option String
  timeSeries : Option (List (String × DailyValues))

/-- The body of `fetchHistoricalData` up to `setHeikinAshiData`:
check HTTP status and `Error Message`, take `Time Series (Daily)`;
when absent, repeat the same checks against the TIME_SERIES_DAILY
response; transform the chosen series with `calculateHeikinAshi`. -/
def fetchHistoricalDataCore (adjusted unadjusted : APIResponse) :
    Except String (List HeikinAshiDataPoint × Bool) :=
  if adjusted.ok = false then .error "HTTP error" else
  match adjusted.errorMessage with
  | some m => .error m
  | none =>
    match adjusted.timeSeries with
    | some ts => .ok (calculateHeikinAshi ts, false)
    | none =>
      if unadjusted.ok = false then .error "HTTP error" else
      match unadjusted.errorMessage with
      | some m => .error m
      | none =>
        match unadjusted.timeSeries with
        | some ts => .ok (calculateHeikinAshi ts, true)
        | none => .error "No time series data found"

/-- The function `fetchHistoricalData`: the catch block rethrows any error
wrapped in `Failed to fetch historical data: ...`. -/
def fetchHistoricalData (adjusted unadjusted : APIResponse) :
    Except String (List HeikinAshiDataPoint × Bool) :=
  match fetchHistoricalDataCore adjusted unadjusted with
  | .error m => .error ("Failed to fetch historical data: " ++ m)
  | .ok v => .ok v

/-! ### Sample inputs used by the witness theorems -/

/-- A two-day series in feed order (newest first). -/
def sampleSeries : List (String × DailyValues) :=
  [("2024-01-02", ⟨"8", "9", "7", "8"⟩), ("2024-01-01", ⟨"5", "6", "4", "5"⟩)]

/-- A one-day series whose OHLC fields are all non-numeric. -/
def badSeries : List (String × DailyValues) :=
  [("2024-01-01", ⟨"x", "y", "z", "w"⟩)]

/-- A small option chain. -/
def sampleChain : OptionsData :=
  { calls := [⟨"AAPL240621C100", .CALL, "100", "5.2", "5.1", "5.3", "2024-06-21"⟩]
    puts := [⟨"AAPL240621P90", .PUT, "90", "1.2", "1.1", "1.3", "2024-06-21"⟩] }

/-! ## Claim theorems -/

/-- C1: for a series with at least two entries, every non-seed candle
(position `i + 1` of the processing-order sequence, the reverse of the
returned list) has `haOpen` equal to the average of the previously built
candle fields `haOpen` and `haClose`, and `haClose` equal to the OHLC average
`(open + high + low + close) / 4` of its own source entry. -/
theorem calculateHeikinAshi_nonseed_recurrence (ts : List (String × DailyValues))
    (h2 : 2 ≤ ts.length) (i : ℕ) (hi : i + 1 < ts.length) :
    ((calculateHeikinAshi ts).reverse.getD (i + 1) default).open_ =
      (((calculateHeikinAshi ts).reverse.getD i default).open_ +
        ((calculateHeikinAshi ts).reverse.getD i default).close) / 2 ∧
    ((calculateHeikinAshi ts).reverse.getD (i + 1) default).close =
      (parseFloat (ts.getD (i + 1) default).2.open_ +
        parseFloat (ts.getD (i + 1) default).2.high +
        parseFloat (ts.getD (i + 1) default).2.low +
        parseFloat (ts.getD (i + 1) default).2.close) / 4 := by
  rw [reverse_calculateHeikinAshi, haLoop_getD_succ ts none 0 i hi]
  rw [show (0 + (i + 1)) = i + 1 by omega]
  exact ⟨haCandle_succ_open i _ _ _, haCandle_succ_close i _ _ _⟩

/-- Witness for C1: the recurrence holds at position 1 of `sampleSeries`. -/
theorem calculateHeikinAshi_nonseed_recurrence_witness :
    ((calculateHeikinAshi sampleSeries).reverse.getD 1 default).open_ =
      (((calculateHeikinAshi sampleSeries).reverse.getD 0 default).open_ +
        ((calculateHeikinAshi sampleSeries).reverse.getD 0 default).close) / 2 ∧
    ((calculateHeikinAshi sampleSeries).reverse.getD 1 default).close =
      (parseFloat (sampleSeries.getD 1 default).2.open_ +
        parseFloat (sampleSeries.getD 1 default).2.high +
        parseFloat (sampleSeries.getD 1 default).2.low +
        parseFloat (sampleSeries.getD 1 default).2.close) / 4 :=
  calculateHeikinAshi_nonseed_recurrence sampleSeries (by decide) 0 (by decide)

/-- C4: every candle has `haHigh` exactly `Math.max(high, haOpen, haClose)`
of the parsed source `high` and its own `haOpen`/`haClose`, and
`haLow` is exactly `Math.min(low, haOpen, haClose)` (positions taken in
processing order, the reverse of the returned list). -/
theorem calculateHeikinAshi_high_low_exact (ts : List (String × DailyValues))
    (i : ℕ) (hi : i < ts.length) :
    ((calculateHeikinAshi ts).reverse.getD i default).high =
      Math.max (parseFloat (ts.getD i default).2.high)
        ((calculateHeikinAshi ts).reverse.getD i default).open_
        ((calculateHeikinAshi ts).reverse.getD i default).close ∧
    ((calculateHeikinAshi ts).reverse.getD i default).low =
      Math.min (parseFloat (ts.getD i default).2.low)
        ((calculateHeikinAshi ts).reverse.getD i default).open_
        ((calculateHeikinAshi ts).reverse.getD i default).close := by
  rw [reverse_calculateHeikinAshi]
  obtain ⟨q, hq⟩ := haLoop_getD_shape ts i hi none 0
  rw [hq]
  exact ⟨haCandle_high_eq _ _ _ _, haCandle_low_eq _ _ _ _⟩

/-- Witness for C4: the max/min equalities hold at position 0 of
`sampleSeries`. -/
theorem calculateHeikinAshi_high_low_exact_witness :
    ((calculateHeikinAshi sampleSeries).reverse.getD 0 default).high =
      Math.max (parseFloat (sampleSeries.getD 0 default).2.high)
        ((calculateHeikinAshi sampleSeries).reverse.getD 0 default).open_
        ((calculateHeikinAshi sampleSeries).reverse.getD 0 default).close ∧
    ((calculateHeikinAshi sampleSeries).reverse.getD 0 default).low =
      Math.min (parseFloat (sampleSeries.getD 0 default).2.low)
        ((calculateHeikinAshi sampleSeries).reverse.getD 0 default).open_
        ((calculateHeikinAshi sampleSeries).reverse.getD 0 default).close :=
  calculateHeikinAshi_high_low_exact sampleSeries 0 (by decide)

/-- C5: for a non-empty series the seed candle (position 0 in processing
order, i.e. the last element of the returned list) takes `haOpen` and
`haClose` from the raw parsed `open`/`close` of the first entry
processed, with no smoothing. -/
theorem calculateHeikinAshi_seed_raw (ts : List (String × DailyValues))
    (h : ts ≠ []) :
    ((calculateHeikinAshi ts).reverse.getD 0 default).open_ =
      parseFloat (ts.getD 0 default).2.open_ ∧
    ((calculateHeikinAshi ts).reverse.getD 0 default).close =
      parseFloat (ts.getD 0 default).2.close := by
  rw [reverse_calculateHeikinAshi, haLoop_getD_zero none 0 ts h]
  exact ⟨haCandle_zero_open _ _ _, haCandle_zero_close _ _ _⟩

/-- Witness for C5: the seed equalities hold on `sampleSeries`. -/
theorem calculateHeikinAshi_seed_raw_witness :
    ((calculateHeikinAshi sampleSeries).reverse.getD 0 default).open_ =
      parseFloat (sampleSeries.getD 0 default).2.open_ ∧
    ((calculateHeikinAshi sampleSeries).reverse.getD 0 default).close =
      parseFloat (sampleSeries.getD 0 default).2.close :=
  calculateHeikinAshi_seed_raw sampleSeries (by decide)

/-- C6: the output has exactly one candle per input entry: its length
equals the input series length. -/
theorem calculateHeikinAshi_preserves_length (ts : List (String × DailyValues)) :
    (calculateHeikinAshi ts).length = ts.length :=
  calculateHeikinAshi_length_eq ts

/-- Witness for C6 (none required: the statement has no hypothesis). -/
theorem calculateHeikinAshi_preserves_length_witness :
    (calculateHeikinAshi sampleSeries).length = sampleSeries.length :=
  calculateHeikinAshi_preserves_length sampleSeries

/-- C7: when the series is iterated newest-first (dates strictly
descending in processing order), the returned sequence is chronological,
oldest first (dates strictly ascending). -/
theorem calculateHeikinAshi_chronological (ts : List (String × DailyValues))
    (hdesc : List.Pairwise (fun a b : String => b < a) (ts.map Prod.fst)) :
    List.Pairwise (fun a b : String => a < b)
      ((calculateHeikinAshi ts).map HeikinAshiDataPoint.time) := by
  have hmap : (calculateHeikinAshi ts).map HeikinAshiDataPoint.time =
      (ts.map Prod.fst).reverse := by
    rw [calculateHeikinAshi, List.map_reverse, haLoop_map_time]
  rw [hmap, List.pairwise_reverse]
  exact hdesc

/-- Witness for C7: `sampleSeries` is newest-first; its output dates are
ascending. -/
theorem calculateHeikinAshi_chronological_witness :
    List.Pairwise (fun a b : String => a < b)
      ((calculateHeikinAshi sampleSeries).map HeikinAshiDataPoint.time) := by
  refine calculateHeikinAshi_chronological sampleSeries ?_
  simp [sampleSeries]
  decide

/-- Counterexample to C2 as stated: on a series whose entry has
non-numeric OHLC fields, `calculateHeikinAshi` does not fail — it returns
normally, with the malformed fields coerced to NaN.  (The function body
has no failure path at all: `parseFloat` yields NaN on malformed input
and every later operation propagates it.) -/
theorem calculateHeikinAshi_malformed_returns_nan :
    calculateHeikinAshi badSeries =
      [{ time := "2024-01-01", open_ := .nan, high := .nan, low := .nan,
         close := .nan }] := by
  decide

/-- C2 amended: on an entry with a non-numeric OHLC field,
`calculateHeikinAshi` raises no error; it silently coerces the field to
NaN, which propagates into the corresponding output candle (position `i`
in processing order, the reverse of the returned list), leaving at least
one NaN field there. -/
theorem calculateHeikinAshi_malformed_propagates (ts : List (String × DailyValues))
    (i : ℕ) (hi : i < ts.length)
    (hbad : parseFloat (ts.getD i default).2.open_ = JNum.nan ∨
      parseFloat (ts.getD i default).2.high = JNum.nan ∨
      parseFloat (ts.getD i default).2.low = JNum.nan ∨
      parseFloat (ts.getD i default).2.close = JNum.nan) :
    hasNaNField ((calculateHeikinAshi ts).reverse.getD i default) :=
  nan_field_propagates ts i hi hbad

/-- Witness for the amended C2, at the all-malformed `badSeries`. -/
theorem calculateHeikinAshi_malformed_propagates_witness :
    hasNaNField ((calculateHeikinAshi badSeries).reverse.getD 0 default) :=
  calculateHeikinAshi_malformed_propagates badSeries 0 (by decide)
    (Or.inl (by decide))

/-- Counterexample to C3 as stated: on the empty series
`calculateHeikinAshi` does not fail — it returns the empty list as a
normal value (the `forEach` body never runs and the function has no
failure path). -/
theorem calculateHeikinAshi_empty_returns_nil :
    calculateHeikinAshi [] = [] := rfl

/-- C3 amended: the empty input yields the empty output sequence, as a
valid no-data result rather than an error; moreover the output is empty
exactly when the input is. -/
theorem calculateHeikinAshi_empty_iff (ts : List (String × DailyValues)) :
    calculateHeikinAshi ts = [] ↔ ts = [] := by
  constructor
  · intro h
    have := calculateHeikinAshi_length_eq ts
    rw [h] at this
    exact List.length_eq_zero.mp this.symm
  · intro h
    rw [h]
    rfl

/-- C10: `calculateHeikinAshi` is total — in the embedding it is a plain
function (the source body contains no `throw`): for every series,
including ones with non-numeric OHLC fields, it returns one candle per
entry, and a non-numeric field of entry `i` shows up as a NaN field of
the candle built for entry `i` (processing order, the reverse of the
returned list). -/
theorem calculateHeikinAshi_total (ts : List (String × DailyValues)) :
    (calculateHeikinAshi ts).length = ts.length ∧
    ∀ i, i < ts.length →
      (parseFloat (ts.getD i default).2.open_ = JNum.nan ∨
        parseFloat (ts.getD i default).2.high = JNum.nan ∨
        parseFloat (ts.getD i default).2.low = JNum.nan ∨
        parseFloat (ts.getD i default).2.close = JNum.nan) →
      hasNaNField ((calculateHeikinAshi ts).reverse.getD i default) :=
  ⟨calculateHeikinAshi_length_eq ts, fun i hi hbad => nan_field_propagates ts i hi hbad⟩

/-- Witness for C10, at the all-malformed `badSeries`. -/
theorem calculateHeikinAshi_total_witness :
    (calculateHeikinAshi badSeries).length = badSeries.length ∧
    hasNaNField ((calculateHeikinAshi badSeries).reverse.getD 0 default) :=
  ⟨(calculateHeikinAshi_total badSeries).1,
    (calculateHeikinAshi_total badSeries).2 0 (by decide) (Or.inl (by decide))⟩

/-- C8: the rendered option-chain rows contain only contracts from the
most recently fetched chain, with multiplicities preserved exactly (so a
contract listed once in the fetch appears at most once, and the fetched
lists are recoverable — nothing is added, dropped or mutated), and when
the fetched chain lists each contract once the row sequence has no
duplicates. -/
theorem optionChainRows_subset_nodup (d : OptionsData) :
    (∀ c ∈ optionChainRows d, c ∈ d.calls ∨ c ∈ d.puts) ∧
    (∀ c, (optionChainRows d).count c = d.calls.count c + d.puts.count c) ∧
    ((d.calls ++ d.puts).Nodup → (optionChainRows d).Nodup) := by
  refine ⟨?_, ?_, ?_⟩
  · intro c hc
    exact List.mem_append.mp hc
  · intro c
    exact List.count_append c d.calls d.puts
  · intro h
    exact h

/-- Witness for C8, on `sampleChain` (whose two contracts are distinct). -/
theorem optionChainRows_subset_nodup_witness :
    (∀ c ∈ optionChainRows sampleChain,
      c ∈ sampleChain.calls ∨ c ∈ sampleChain.puts) ∧
    (optionChainRows sampleChain).Nodup :=
  ⟨(optionChainRows_subset_nodup sampleChain).1,
    (optionChainRows_subset_nodup sampleChain).2.2 (by decide)⟩

/-- C9: when the TIME_SERIES_DAILY_ADJUSTED response is HTTP-ok with no
`Error Message` but lacks the `Time Series (Daily)` key,
`fetchHistoricalData` falls back to the TIME_SERIES_DAILY response (the
returned flag `true` records that the second request was issued): if
that response carries the key, its series is the one transformed and
returned; only if it also lacks the key does the fetch fail. -/
theorem fetchHistoricalData_fallback (adjusted unadjusted : APIResponse)
    (hok : adjusted.ok = true) (herr : adjusted.errorMessage = none)
    (hts : adjusted.timeSeries = none)
    (hok2 : unadjusted.ok = true) (herr2 : unadjusted.errorMessage = none) :
    (∀ ts, unadjusted.timeSeries = some ts →
      fetchHistoricalData adjusted unadjusted =
        .ok (calculateHeikinAshi ts, true)) ∧
    (unadjusted.timeSeries = none →
      fetchHistoricalData adjusted unadjusted =
        .error "Failed to fetch historical data: No time series data found") := by
  constructor
  · intro ts hts2
    simp [fetchHistoricalData, fetchHistoricalDataCore, hok, herr, hts, hok2,
      herr2, hts2]
  · intro hts2
    simp [fetchHistoricalData, fetchHistoricalDataCore, hok, herr, hts, hok2,
      herr2, hts2]

/-- Witness for C9: a keyless adjusted response followed by an unadjusted
response carrying `sampleSeries`. -/
theorem fetchHistoricalData_fallback_witness :
    fetchHistoricalData ⟨true, none, none⟩ ⟨true, none, some sampleSeries⟩ =
      .ok (calculateHeikinAshi sampleSeries, true) :=
  (fetchHistoricalData_fallback ⟨true, none, none⟩ ⟨true, none, some sampleSeries⟩
    rfl rfl rfl rfl rfl).1 sampleSeries rfl
